import Mathlib

/-!
# Verification of the portal subsystem of `sweriko/euclid`

Shallow embedding of the portal math and renderer of the repository
(`src/portal/Portal.ts`, `src/portal/PortalUtils.ts`, `PortalRenderer.ts`)
over exact rational arithmetic.  Scalars that are IEEE doubles in the
TypeScript source are modelled as `ℚ`; every arithmetic operation used by
the embedded code (add, sub, mul, div, max, sign, comparisons) is exact on
`ℚ`, so the theorems below are statements about the source algorithms over
exact (real) arithmetic.
-/

namespace Euclid

/-- Embeds `THREE.Vector3`: a 3-component vector. -/
@[ext]
structure Vec3 where
  x : ℚ
  y : ℚ
  z : ℚ
deriving DecidableEq, Repr

/-- Embeds `THREE.Quaternion`: components `(x, y, z, w)`. -/
@[ext]
structure Quat where
  x : ℚ
  y : ℚ
  z : ℚ
  w : ℚ
deriving DecidableEq, Repr

/-- Embeds `THREE.Vector3.sub`. -/
def Vec3.sub (a b : Vec3) : Vec3 :=
  ⟨a.x - b.x, a.y - b.y, a.z - b.z⟩

/-- Embeds `THREE.Vector3.add`. -/
def Vec3.add (a b : Vec3) : Vec3 :=
  ⟨a.x + b.x, a.y + b.y, a.z + b.z⟩

/-- Embeds `THREE.Vector3.dot`. -/
def Vec3.dot (a b : Vec3) : ℚ :=
  a.x * b.x + a.y * b.y + a.z * b.z

/-- Squared Euclidean length of a vector (`THREE.Vector3.lengthSq`). -/
def Vec3.lengthSq (a : Vec3) : ℚ :=
  a.x * a.x + a.y * a.y + a.z * a.z

/-- Embeds `THREE.Quaternion.invert`, which in three.js is defined to be the
conjugate (the quaternion is assumed to have unit length). -/
def Quat.conj (q : Quat) : Quat :=
  ⟨-q.x, -q.y, -q.z, q.w⟩

/-- Embeds `THREE.Quaternion.multiply`: `a.mul b` is the Hamilton product `a * b`,
with the exact component formulas of `Quaternion.multiplyQuaternionsFlat`. -/
def Quat.mul (a b : Quat) : Quat :=
  ⟨a.x * b.w + a.w * b.x + a.y * b.z - a.z * b.y,
   a.y * b.w + a.w * b.y + a.z * b.x - a.x * b.z,
   a.z * b.w + a.w * b.z + a.x * b.y - a.y * b.x,
   a.w * b.w - a.x * b.x - a.y * b.y - a.z * b.z⟩

/-- Embeds `THREE.Quaternion.lengthSq`: squared norm. -/
def Quat.normSq (q : Quat) : ℚ :=
  q.x * q.x + q.y * q.y + q.z * q.z + q.w * q.w

/-- Embeds `THREE.Vector3.applyQuaternion`, with the exact `t = 2 cross(q, v)`,
`v + w t + cross(q, t)` formulas used by three.js. -/
def Vec3.applyQuaternion (v : Vec3) (q : Quat) : Vec3 :=
  let tx := 2 * (q.y * v.z - q.z * v.y)
  let ty := 2 * (q.z * v.x - q.x * v.z)
  let tz := 2 * (q.x * v.y - q.y * v.x)
  ⟨v.x + q.w * tx + q.y * tz - q.z * ty,
   v.y + q.w * ty + q.z * tx - q.x * tz,
   v.z + q.w * tz + q.x * ty - q.y * tx⟩

/-- The identity quaternion (`new THREE.Quaternion()`). -/
def idQuat : Quat := ⟨0, 0, 0, 1⟩

/-- Embeds `new THREE.Quaternion().setFromAxisAngle(new THREE.Vector3(0,1,0), Math.PI)`:
the 180-degree rotation about the vertical axis.  `setFromAxisAngle` yields
`(axis * sin(angle/2), cos(angle/2))`; at `angle = π` this is exactly
`(0, 1, 0, 0)` since `sin(π/2) = 1` and `cos(π/2) = 0`. -/
def flipYQuat : Quat := ⟨0, 1, 0, 0⟩

/-- The position/orientation pair of a portal, the shape both
`Portal.ts` and the `PortalUtils.ts` free functions consume. -/
structure PortalPose where
  position : Vec3
  quaternion : Quat
deriving DecidableEq, Repr

/-- Embeds `Portal._normal`: the local `+Z` axis rotated by the portal's
quaternion (computed in the constructor and in `updateMesh`). -/
def PortalPose.normal (p : PortalPose) : Vec3 :=
  Vec3.applyQuaternion ⟨0, 0, 1⟩ p.quaternion

/-- Embeds `Portal.isPointInFront`: `(point - position) · normal > 0`. -/
def PortalPose.isPointInFront (p : PortalPose) (point : Vec3) : Bool :=
  decide ((point.sub p.position).dot p.normal > 0)

/-- Embeds `Portal.getSignedDistance`: `(point - position) · normal`. -/
def PortalPose.getSignedDistance (p : PortalPose) (point : Vec3) : ℚ :=
  (point.sub p.position).dot p.normal

/-- Embeds `Portal.getDestinationCameraTransform` (Portal.ts lines 135-177).
`linkedPortal` models the `_linkedPortal` field: when it is `none` the
input pose is returned unchanged; otherwise the viewer pose is mapped
through the portal pair by the five-step algorithm of the source. -/
def getDestinationCameraTransform (thisPortal : PortalPose)
    (linkedPortal : Option PortalPose)
    (viewerPosition : Vec3) (viewerQuaternion : Quat) : Vec3 × Quat :=
  match linkedPortal with
  | none => (viewerPosition, viewerQuaternion)
  | some dest =>
    -- 1. Get viewer position relative to this portal
    let relativePos := viewerPosition.sub thisPortal.position
    -- 2. Transform to portal's local space
    let srcInverse := thisPortal.quaternion.conj
    let rel2 := relativePos.applyQuaternion srcInverse
    -- 3. Rotate 180 degrees (negate local x and z)
    let rel3 : Vec3 := ⟨-rel2.x, rel2.y, -rel2.z⟩
    -- 4. Transform to destination portal's world space
    let rel4 := rel3.applyQuaternion dest.quaternion
    -- 5. Add destination portal position
    let destPosition := rel4.add dest.position
    -- 6. Destination rotation: dest * flipY * srcInverse * viewer
    let destQuaternion := ((dest.quaternion.mul flipYQuat).mul srcInverse).mul viewerQuaternion
    (destPosition, destQuaternion)

/-- Portal A of the spec's concrete through-portal scenario: at the origin
with identity orientation. -/
def portalA : PortalPose := ⟨⟨0, 0, 0⟩, idQuat⟩

/-- Portal B of the spec's concrete through-portal scenario: at `(0,0,10)`,
oriented by a 180-degree rotation about the vertical axis. -/
def portalB : PortalPose := ⟨⟨0, 0, 10⟩, flipYQuat⟩

/-- Applying the `flipY(π)` quaternion as a rotation negates the x and z
components: step 3 of the source ("negate local X and Z") is exactly the
spec's "180-degree turn about the local vertical axis". -/
theorem applyQuaternion_flipY (v : Vec3) :
    v.applyQuaternion flipYQuat = ⟨-v.x, v.y, -v.z⟩ := by
  simp only [Vec3.applyQuaternion, flipYQuat]
  ext <;> ring

/-- C1: `getDestinationCameraTransform` follows the five-step algorithm:
subtract the source position, rotate by the inverse (conjugate) of the
source orientation, apply the 180-degree vertical flip (negating local X
and Z), rotate by the destination orientation and add the destination
position; the resulting orientation is
`dest.orientation * flipY(π) * inverse(source.orientation) * viewerOrientation`.
Concretely, for portal A at the origin with identity orientation linked to
portal B at `(0,0,10)` with a 180-degree vertical rotation, a viewer at
`(0,1,-1/2)` with identity orientation maps to position `(0,1,19/2)` and an
orientation that acts as the identity rotation on every vector. -/
theorem getDestinationCameraTransform_algorithm :
    (∀ (src dst : PortalPose) (vp : Vec3) (vq : Quat),
      getDestinationCameraTransform src (some dst) vp vq =
        (Vec3.add
          (Vec3.applyQuaternion
            (Vec3.applyQuaternion
              (Vec3.applyQuaternion (vp.sub src.position) src.quaternion.conj)
              flipYQuat)
            dst.quaternion)
          dst.position,
         ((dst.quaternion.mul flipYQuat).mul src.quaternion.conj).mul vq)) ∧
    (getDestinationCameraTransform portalA (some portalB) ⟨0, 1, -1/2⟩ idQuat).1
        = ⟨0, 1, 19/2⟩ ∧
    (∀ v : Vec3,
      v.applyQuaternion
          (getDestinationCameraTransform portalA (some portalB) ⟨0, 1, -1/2⟩ idQuat).2
        = v) := by
  refine ⟨fun src dst vp vq => ?_, by norm_num [getDestinationCameraTransform,
    portalA, portalB, idQuat, flipYQuat, Vec3.sub, Vec3.applyQuaternion,
    Quat.conj, Quat.mul, Vec3.add, Vec3.ext_iff], fun v => ?_⟩
  · simp only [getDestinationCameraTransform, applyQuaternion_flipY]
  · simp only [getDestinationCameraTransform, portalA, portalB, idQuat, flipYQuat,
      Vec3.sub, Vec3.applyQuaternion, Quat.conj, Quat.mul, Vec3.add]
    ext <;> ring

/-! ## Quaternion rotation algebra

Helper lemmas relating three.js's `applyQuaternion` formula to the Hamilton
product, used to prove the round-trip and isometry claims. -/

/-- Embed a vector as a pure quaternion. -/
def Quat.pureVec (v : Vec3) : Quat := ⟨v.x, v.y, v.z, 0⟩

/-- The vector part of a quaternion. -/
def Quat.vecPart (m : Quat) : Vec3 := ⟨m.x, m.y, m.z⟩

theorem Quat.mul_assoc' (a b c : Quat) : (a.mul b).mul c = a.mul (b.mul c) := by
  ext <;> simp only [Quat.mul] <;> ring

theorem Quat.conj_mul (a b : Quat) : (a.mul b).conj = b.conj.mul a.conj := by
  ext <;> simp only [Quat.mul, Quat.conj] <;> ring

theorem Quat.conj_conj (q : Quat) : q.conj.conj = q := by
  ext <;> simp [Quat.conj]

theorem Quat.normSq_conj (q : Quat) : q.conj.normSq = q.normSq := by
  simp only [Quat.conj, Quat.normSq]; ring

theorem Quat.normSq_mul (a b : Quat) : (a.mul b).normSq = a.normSq * b.normSq := by
  simp only [Quat.mul, Quat.normSq]; ring

theorem Quat.normSq_pureVec (v : Vec3) : (Quat.pureVec v).normSq = v.lengthSq := by
  simp only [Quat.pureVec, Quat.normSq, Vec3.lengthSq]; ring

theorem Quat.conj_mul_self (q : Quat) : q.conj.mul q = ⟨0, 0, 0, q.normSq⟩ := by
  ext <;> simp only [Quat.conj, Quat.mul, Quat.normSq] <;> ring

theorem Quat.self_mul_conj (q : Quat) : q.mul q.conj = ⟨0, 0, 0, q.normSq⟩ := by
  ext <;> simp only [Quat.conj, Quat.mul, Quat.normSq] <;> ring

theorem Vec3.applyQuaternion_id (v : Vec3) : v.applyQuaternion idQuat = v := by
  ext <;> simp [Vec3.applyQuaternion, idQuat]

/-- three.js's `applyQuaternion` formula agrees with conjugation by the
Hamilton product up to a defect proportional to `1 - ‖q‖²` (so they agree
exactly for unit quaternions). Pure polynomial identity. -/
theorem Vec3.applyQuaternion_eq_mul (v : Vec3) (q : Quat) :
    v.applyQuaternion q =
      ⟨((q.mul (Quat.pureVec v)).mul q.conj).x + (1 - q.normSq) * v.x,
       ((q.mul (Quat.pureVec v)).mul q.conj).y + (1 - q.normSq) * v.y,
       ((q.mul (Quat.pureVec v)).mul q.conj).z + (1 - q.normSq) * v.z⟩ := by
  ext <;> simp only [Vec3.applyQuaternion, Quat.mul, Quat.conj, Quat.pureVec,
    Quat.normSq] <;> ring

/-- The Hamilton conjugate `q ⬝ v ⬝ q*` of a pure quaternion is pure. -/
theorem Quat.mul_pure_conj_w (q : Quat) (v : Vec3) :
    ((q.mul (Quat.pureVec v)).mul q.conj).w = 0 := by
  simp only [Quat.mul, Quat.conj, Quat.pureVec]; ring

theorem Vec3.applyQuaternion_of_unit (v : Vec3) (q : Quat) (h : q.normSq = 1) :
    v.applyQuaternion q = Quat.vecPart ((q.mul (Quat.pureVec v)).mul q.conj) := by
  rw [Vec3.applyQuaternion_eq_mul, h]
  ext <;> simp [Quat.vecPart]

theorem Quat.pureVec_vecPart (m : Quat) (h : m.w = 0) :
    Quat.pureVec (Quat.vecPart m) = m := by
  ext <;> simp [Quat.pureVec, Quat.vecPart, h.symm]

/-- Composition of unit-quaternion rotations: rotating by `q` then by `p`
is rotating by the product `p ⬝ q`. -/
theorem Vec3.applyQuaternion_applyQuaternion (v : Vec3) (p q : Quat)
    (hp : p.normSq = 1) (hq : q.normSq = 1) :
    (v.applyQuaternion q).applyQuaternion p = v.applyQuaternion (p.mul q) := by
  have hpq : (p.mul q).normSq = 1 := by rw [Quat.normSq_mul, hp, hq]; ring
  rw [Vec3.applyQuaternion_of_unit _ q hq, Vec3.applyQuaternion_of_unit _ p hp,
    Vec3.applyQuaternion_of_unit _ (p.mul q) hpq,
    Quat.pureVec_vecPart _ (Quat.mul_pure_conj_w q v)]
  rw [Quat.conj_mul, ← Quat.mul_assoc', ← Quat.mul_assoc', ← Quat.mul_assoc']

/-- Rotating by `q` and then by its conjugate recovers the vector (for
unit `q`); this is the inverse property behind `Quaternion.invert`. -/
theorem Vec3.applyQuaternion_conj_cancel (v : Vec3) (q : Quat) (h : q.normSq = 1) :
    (v.applyQuaternion q).applyQuaternion q.conj = v := by
  rw [Vec3.applyQuaternion_applyQuaternion v q.conj q (by rw [Quat.normSq_conj, h]) h,
    Quat.conj_mul_self, h]
  exact Vec3.applyQuaternion_id v

/-- Rotating by the conjugate and then by `q` recovers the vector (for
unit `q`). -/
theorem Vec3.applyQuaternion_cancel_conj (v : Vec3) (q : Quat) (h : q.normSq = 1) :
    (v.applyQuaternion q.conj).applyQuaternion q = v := by
  rw [Vec3.applyQuaternion_applyQuaternion v q q.conj h (by rw [Quat.normSq_conj, h]),
    Quat.self_mul_conj, h]
  exact Vec3.applyQuaternion_id v

theorem Vec3.add_sub_cancel' (a b : Vec3) : (a.add b).sub b = a := by
  ext <;> simp [Vec3.add, Vec3.sub]

theorem Vec3.sub_add_cancel' (a b : Vec3) : (a.sub b).add b = a := by
  ext <;> simp [Vec3.add, Vec3.sub]

/-- Rotation by a unit quaternion preserves the squared length. -/
theorem Vec3.lengthSq_applyQuaternion (v : Vec3) (q : Quat) (h : q.normSq = 1) :
    (v.applyQuaternion q).lengthSq = v.lengthSq := by
  rw [Vec3.applyQuaternion_of_unit v q h]
  have hw := Quat.mul_pure_conj_w q v
  have hv : (Quat.vecPart ((q.mul (Quat.pureVec v)).mul q.conj)).lengthSq
      = ((q.mul (Quat.pureVec v)).mul q.conj).normSq := by
    simp only [Quat.vecPart, Vec3.lengthSq, Quat.normSq, hw]; ring
  rw [hv, Quat.normSq_mul, Quat.normSq_mul, h, Quat.normSq_conj, h,
    Quat.normSq_pureVec]
  ring

theorem Vec3.applyQuaternion_add (u w : Vec3) (q : Quat) :
    (u.add w).applyQuaternion q = (u.applyQuaternion q).add (w.applyQuaternion q) := by
  ext <;> simp only [Vec3.add, Vec3.applyQuaternion] <;> ring

/-- Rotation by a unit quaternion preserves the dot product. -/
theorem Vec3.dot_applyQuaternion (u w : Vec3) (q : Quat) (h : q.normSq = 1) :
    (u.applyQuaternion q).dot (w.applyQuaternion q) = u.dot w := by
  have h1 := Vec3.lengthSq_applyQuaternion (u.add w) q h
  have h2 := Vec3.lengthSq_applyQuaternion u q h
  have h3 := Vec3.lengthSq_applyQuaternion w q h
  rw [Vec3.applyQuaternion_add] at h1
  have expand : ∀ a b : Vec3,
      (a.add b).lengthSq = a.lengthSq + 2 * a.dot b + b.lengthSq := by
    intro a b; simp only [Vec3.add, Vec3.lengthSq, Vec3.dot]; ring
  rw [expand, expand] at h1
  linarith

/-! ## PortalUtils free functions -/

/-- Embeds `transformPointThroughPortal` (PortalUtils.ts lines 66-87). -/
def transformPointThroughPortal (point : Vec3)
    (sourcePortal destPortal : PortalPose) : Vec3 :=
  -- Get point relative to source portal
  let relativePos := point.sub sourcePortal.position
  -- Transform to source portal's local space
  let srcInverse := sourcePortal.quaternion.conj
  let rel1 := relativePos.applyQuaternion srcInverse
  -- Rotate 180 degrees (portals face each other): negate x and z
  let rel2 : Vec3 := ⟨-rel1.x, rel1.y, -rel1.z⟩
  -- Transform to destination portal's world space and add its position
  let rel3 := rel2.applyQuaternion destPortal.quaternion
  rel3.add destPortal.position

/-- Embeds `transformDirectionThroughPortal` (PortalUtils.ts lines 97-116); the
source consumes only the `quaternion` field of each portal. -/
def transformDirectionThroughPortal (direction : Vec3)
    (sourceQuat destQuat : Quat) : Vec3 :=
  let srcInverse := sourceQuat.conj
  let r1 := direction.applyQuaternion srcInverse
  let r2 : Vec3 := ⟨-r1.x, r1.y, -r1.z⟩
  r2.applyQuaternion destQuat

/-- Embeds `transformQuaternionThroughPortal` (PortalUtils.ts lines 126-142). -/
def transformQuaternionThroughPortal (quat : Quat)
    (sourceQuat destQuat : Quat) : Quat :=
  ((destQuat.mul flipYQuat).mul sourceQuat.conj).mul quat

/-- The x/z negation of the through-portal map is an involution. -/
theorem flip_flip (v : Vec3) :
    (⟨-(⟨-v.x, v.y, -v.z⟩ : Vec3).x, (⟨-v.x, v.y, -v.z⟩ : Vec3).y,
      -(⟨-v.x, v.y, -v.z⟩ : Vec3).z⟩ : Vec3) = v := by
  ext <;> simp

/-- C5: for every point and every pair of portal poses with unit-quaternion
orientations, mapping through the pair and back (with source/destination
roles swapped) returns the original point exactly. -/
theorem transformPointThroughPortal_round_trip (p : Vec3) (A B : PortalPose)
    (hA : A.quaternion.normSq = 1) (hB : B.quaternion.normSq = 1) :
    transformPointThroughPortal (transformPointThroughPortal p A B) B A = p := by
  simp only [transformPointThroughPortal]
  rw [Vec3.add_sub_cancel', Vec3.applyQuaternion_conj_cancel _ _ hB, flip_flip,
    Vec3.applyQuaternion_cancel_conj _ _ hA, Vec3.sub_add_cancel']

/-- Closed witness for the round-trip theorem at a concrete pose pair. -/
theorem transformPointThroughPortal_round_trip_witness :
    Quat.normSq idQuat = 1 ∧ Quat.normSq flipYQuat = 1 ∧
    transformPointThroughPortal
      (transformPointThroughPortal ⟨1, 2, 3⟩ ⟨⟨1, 0, 0⟩, idQuat⟩ ⟨⟨0, 0, 10⟩, flipYQuat⟩)
      ⟨⟨0, 0, 10⟩, flipYQuat⟩ ⟨⟨1, 0, 0⟩, idQuat⟩ = ⟨1, 2, 3⟩ :=
  ⟨by simp [idQuat, Quat.normSq], by simp [flipYQuat, Quat.normSq],
    transformPointThroughPortal_round_trip ⟨1, 2, 3⟩ ⟨⟨1, 0, 0⟩, idQuat⟩
      ⟨⟨0, 0, 10⟩, flipYQuat⟩ (by simp [idQuat, Quat.normSq])
      (by simp [flipYQuat, Quat.normSq])⟩

/-- The x/z negation preserves squared length. -/
theorem flip_lengthSq (v : Vec3) :
    Vec3.lengthSq ⟨-v.x, v.y, -v.z⟩ = v.lengthSq := by
  simp only [Vec3.lengthSq]; ring

/-- C10: for unit source/destination orientations, the through-portal
direction map preserves the Euclidean length (stated via `Real.sqrt` of the
exact rational squared length). -/
theorem transformDirectionThroughPortal_isometry (v : Vec3) (sourceQuat destQuat : Quat)
    (hS : sourceQuat.normSq = 1) (hD : destQuat.normSq = 1) :
    Real.sqrt ((transformDirectionThroughPortal v sourceQuat destQuat).lengthSq : ℝ)
      = Real.sqrt ((v.lengthSq : ℝ)) := by
  have key : (transformDirectionThroughPortal v sourceQuat destQuat).lengthSq
      = v.lengthSq := by
    simp only [transformDirectionThroughPortal]
    rw [Vec3.lengthSq_applyQuaternion _ _ hD, flip_lengthSq,
      Vec3.lengthSq_applyQuaternion _ _ (by rw [Quat.normSq_conj, hS])]
  rw [key]

/-- Closed witness for the isometry theorem at a concrete direction and a
concrete pair of unit quaternions. -/
theorem transformDirectionThroughPortal_isometry_witness :
    Quat.normSq flipYQuat = 1 ∧ Quat.normSq idQuat = 1 ∧
    Real.sqrt ((transformDirectionThroughPortal ⟨1, 2, 3⟩ flipYQuat idQuat).lengthSq : ℝ)
      = Real.sqrt ((Vec3.lengthSq ⟨1, 2, 3⟩ : ℝ)) :=
  ⟨by simp [flipYQuat, Quat.normSq], by simp [idQuat, Quat.normSq],
    transformDirectionThroughPortal_isometry ⟨1, 2, 3⟩ flipYQuat idQuat
      (by simp [flipYQuat, Quat.normSq]) (by simp [idQuat, Quat.normSq])⟩

/-- C8: on an unlinked portal (`_linkedPortal = null`),
`getDestinationCameraTransform` returns the input position and orientation
unchanged; being a total function, it never raises an error. -/
theorem getDestinationCameraTransform_identity_passthrough
    (thisPortal : PortalPose) (vp : Vec3) (vq : Quat) :
    getDestinationCameraTransform thisPortal none vp vq = (vp, vq) := rfl

/-! ## Crossing state (`getPortalCrossingState`, PortalUtils.ts lines 152-169) -/

/-- Embeds `THREE.Plane`: `normal · p + constant = 0`. -/
structure Plane where
  normal : Vec3
  constant : ℚ
deriving DecidableEq, Repr

/-- Embeds `THREE.Plane.distanceToPoint`: `normal · p + constant`. -/
def Plane.distanceToPoint (pl : Plane) (p : Vec3) : ℚ :=
  pl.normal.dot p + pl.constant

/-- The record returned by `getPortalCrossingState`. -/
structure CrossingState where
  crossing : Bool
  signedDistance : ℚ
  inFront : ℚ
  behind : ℚ
deriving DecidableEq, Repr

/-- Embeds `getPortalCrossingState` (PortalUtils.ts lines 152-169). -/
def getPortalCrossingState (objectPosition : Vec3) (objectRadius : ℚ)
    (portalPlane : Plane) : CrossingState :=
  let signedDistance := portalPlane.distanceToPoint objectPosition
  let inFront := max 0 (signedDistance + objectRadius)
  let behind := max 0 (-signedDistance + objectRadius)
  let crossing :=
    decide (signedDistance > -objectRadius ∧ signedDistance < objectRadius)
  ⟨crossing, signedDistance, inFront, behind⟩

/-- C7 counterexample: with `objectRadius = 0` the claim's unconditional
boundary statement fails: the signed distance is `0`, yet `crossing` is
`false` (the source uses strict comparisons), not `true` as claimed. -/
theorem getPortalCrossingState_zero_radius :
    (getPortalCrossingState ⟨0, 0, 0⟩ 0 ⟨⟨0, 0, 1⟩, 0⟩).signedDistance = 0 ∧
    (getPortalCrossingState ⟨0, 0, 0⟩ 0 ⟨⟨0, 0, 1⟩, 0⟩).crossing = false := by
  norm_num [getPortalCrossingState, Plane.distanceToPoint, Vec3.dot]

/-- C7 (amended): `getPortalCrossingState` computes
`signedDistance = plane · p + plane.constant`,
`inFront = max 0 (signedDistance + radius)`,
`behind = max 0 (-signedDistance + radius)` and
`crossing = (|signedDistance| < radius)`; consequently `signedDistance =
radius` gives `crossing = false`, and — provided the radius is positive —
`signedDistance = 0` gives `crossing = true` with `inFront = behind =
radius`. -/
theorem getPortalCrossingState_spec (p : Vec3) (r : ℚ) (pl : Plane) :
    (getPortalCrossingState p r pl).signedDistance = pl.normal.dot p + pl.constant ∧
    (getPortalCrossingState p r pl).inFront
      = max 0 ((getPortalCrossingState p r pl).signedDistance + r) ∧
    (getPortalCrossingState p r pl).behind
      = max 0 (-(getPortalCrossingState p r pl).signedDistance + r) ∧
    ((getPortalCrossingState p r pl).crossing = true ↔
      |(getPortalCrossingState p r pl).signedDistance| < r) ∧
    ((getPortalCrossingState p r pl).signedDistance = r →
      (getPortalCrossingState p r pl).crossing = false) ∧
    (0 < r → (getPortalCrossingState p r pl).signedDistance = 0 →
      (getPortalCrossingState p r pl).crossing = true ∧
      (getPortalCrossingState p r pl).inFront = r ∧
      (getPortalCrossingState p r pl).behind = r) := by
  refine ⟨rfl, rfl, rfl, ?_, ?_, ?_⟩
  · show decide (pl.distanceToPoint p > -r ∧ pl.distanceToPoint p < r) = true ↔
      |pl.distanceToPoint p| < r
    rw [decide_eq_true_iff, abs_lt]
  · intro hsd
    have hsd2 : pl.distanceToPoint p = r := hsd
    show decide (pl.distanceToPoint p > -r ∧ pl.distanceToPoint p < r) = false
    rw [decide_eq_false_iff_not]
    rintro ⟨-, h2⟩
    exact absurd hsd2 (ne_of_lt h2)
  · intro hr hsd
    have hsd2 : pl.distanceToPoint p = 0 := hsd
    refine ⟨?_, ?_, ?_⟩
    · show decide (pl.distanceToPoint p > -r ∧ pl.distanceToPoint p < r) = true
      rw [decide_eq_true_iff, hsd2]
      exact ⟨by linarith, hr⟩
    · show max 0 (pl.distanceToPoint p + r) = r
      rw [hsd2, zero_add]
      exact max_eq_right (le_of_lt hr)
    · show max 0 (-pl.distanceToPoint p + r) = r
      rw [hsd2, neg_zero, zero_add]
      exact max_eq_right (le_of_lt hr)

/-- Closed witness for the amended crossing-state theorem: a unit-radius
object centered on the plane is crossing with `inFront = behind = 1`, and
an object whose signed distance equals its radius is not crossing. -/
theorem getPortalCrossingState_spec_witness :
    ((getPortalCrossingState ⟨0, 0, 0⟩ 1 ⟨⟨0, 0, 1⟩, 0⟩).crossing = true ∧
      (getPortalCrossingState ⟨0, 0, 0⟩ 1 ⟨⟨0, 0, 1⟩, 0⟩).inFront = 1 ∧
      (getPortalCrossingState ⟨0, 0, 0⟩ 1 ⟨⟨0, 0, 1⟩, 0⟩).behind = 1) ∧
    (getPortalCrossingState ⟨0, 0, 1⟩ 1 ⟨⟨0, 0, 1⟩, 0⟩).crossing = false :=
  ⟨(getPortalCrossingState_spec ⟨0, 0, 0⟩ 1 ⟨⟨0, 0, 1⟩, 0⟩).2.2.2.2.2 one_pos
      (by simp [getPortalCrossingState, Plane.distanceToPoint, Vec3.dot]),
    (getPortalCrossingState_spec ⟨0, 0, 1⟩ 1 ⟨⟨0, 0, 1⟩, 0⟩).2.2.2.2.1
      (by simp [getPortalCrossingState, Plane.distanceToPoint, Vec3.dot])⟩

/-! ## Portal linking (`Portal.link`, Portal.ts lines 86-91)

Portals are identified by their ids (modelled as `Nat`); the mutable
`_linkedPortal` fields of all portals form a map from id to optional id. -/

/-- The `_linkedPortal` fields of all portals. -/
def LinkState := Nat → Option Nat

/-- Assignment `portal._linkedPortal = v` for the portal with id `a`. -/
def linkSet (s : LinkState) (a : Nat) (v : Option Nat) : LinkState :=
  fun x => if x = a then v else s x

/-- Embeds `Portal.link(portal)`: assigns `this._linkedPortal = portal` and, if
`portal._linkedPortal !== this`, calls `portal.link(this)`.  That inner
call performs its own assignment, after which its guard
`this._linkedPortal !== portal` is false (the outer call has just assigned
it), so the recursion always stops after at most two assignments; the
definition below is that unrolled form. -/
def link (s : LinkState) (a b : Nat) : LinkState :=
  let s1 := linkSet s a (some b)
  if s1 b = some a then s1 else linkSet s1 b (some a)

/-- States reachable from the initial all-unlinked state (every
`_linkedPortal` starts as `null` in the constructor) by `link` calls. -/
inductive Reachable : LinkState → Prop
  | init : Reachable (fun _ => none)
  | step (s : LinkState) (a b : Nat) : Reachable s → Reachable (link s a b)

/-- C6 counterexample: after `link 0 1` followed by `link 2 0` (re-linking
portal 0 to portal 2), the reachable state has portal 1 still pointing at
portal 0 while portal 0 points at portal 2: the symmetry invariant
`A.linkedPortal == B → B.linkedPortal == A` does not hold of every
reachable state. -/
theorem link_relink_breaks_symmetry :
    Reachable (link (link (fun _ => none) 0 1) 2 0) ∧
    (link (link (fun _ => none) 0 1) 2 0) 1 = some 0 ∧
    (link (link (fun _ => none) 0 1) 2 0) 0 ≠ some 1 := by
  refine ⟨Reachable.step _ _ _ (Reachable.step _ _ _ Reachable.init), ?_, ?_⟩ <;>
    simp [link, linkSet]

theorem linkSet_same (s : LinkState) (a : Nat) (v : Option Nat) :
    linkSet s a v a = v := by
  simp [linkSet]

theorem linkSet_other (s : LinkState) (a x : Nat) (v : Option Nat) (h : ¬ x = a) :
    linkSet s a v x = s x := by
  simp [linkSet, h]

theorem linkSet_self (s : LinkState) (a : Nat) (v : Option Nat) (h : s a = v) :
    linkSet s a v = s := by
  funext x
  by_cases hx : x = a
  · subst hx; simp [linkSet, h]
  · simp [linkSet, hx]

/-- C6 (amended): a single `A.link(B)` always establishes the two-sided
link (`A.linkedPortal == B` and `B.linkedPortal == A`), calling
`B.link(A)` instead produces the identical state, and calling it twice is
a no-op — but the two-sided property is a postcondition of the call, not
an invariant of all reachable states: re-linking leaves the old partner's
back-reference dangling (see the counterexample). -/
theorem link_post_amended :
    (∀ (s : LinkState) (a b : Nat), (link s a b) a = some b ∧ (link s a b) b = some a) ∧
    (∀ (s : LinkState) (a b : Nat), link s a b = link s b a) ∧
    (∀ (s : LinkState) (a b : Nat), link (link s a b) a b = link s a b) := by
  have post : ∀ (s : LinkState) (a b : Nat), (link s a b) a = some b ∧ (link s a b) b = some a := by
    intro s a b
    show (if linkSet s a (some b) b = some a
          then linkSet s a (some b)
          else linkSet (linkSet s a (some b)) b (some a)) a = some b ∧
         (if linkSet s a (some b) b = some a
          then linkSet s a (some b)
          else linkSet (linkSet s a (some b)) b (some a)) b = some a
    by_cases hg : linkSet s a (some b) b = some a
    · rw [if_pos hg]
      exact ⟨linkSet_same s a (some b), hg⟩
    · rw [if_neg hg]
      by_cases hab : a = b
      · subst hab
        exact absurd (linkSet_same s a (some a)) hg
      · have hba : ¬ b = a := fun h => hab h.symm
        refine ⟨?_, linkSet_same _ b (some a)⟩
        rw [linkSet_other _ b a (some a) hab]
        exact linkSet_same s a (some b)
  refine ⟨post, ?_, ?_⟩
  · intro s a b
    by_cases hab : a = b
    · subst hab; rfl
    · have hba : ¬ b = a := fun h => hab h.symm
      show (if linkSet s a (some b) b = some a
            then linkSet s a (some b)
            else linkSet (linkSet s a (some b)) b (some a)) =
           (if linkSet s b (some a) a = some b
            then linkSet s b (some a)
            else linkSet (linkSet s b (some a)) a (some b))
      rw [linkSet_other s a b (some b) hba, linkSet_other s b a (some a) hab]
      funext x
      by_cases h1 : s b = some a <;> by_cases h2 : s a = some b <;>
        simp only [h1, h2, if_true, if_false, if_pos, if_neg, not_false_iff] <;>
        by_cases hxa : x = a <;> by_cases hxb : x = b <;>
        simp_all [linkSet]
  · intro s a b
    have h1 := (post s a b).1
    have h2 := (post s a b).2
    show (if linkSet (link s a b) a (some b) b = some a
          then linkSet (link s a b) a (some b)
          else linkSet (linkSet (link s a b) a (some b)) b (some a)) = link s a b
    rw [linkSet_self _ _ _ h1, if_pos h2]

/-! ## Oblique near-plane projection
(`computeObliqueProjectionMatrix`, PortalUtils.ts lines 15-56) -/

/-- Embeds `THREE.Matrix4`: the 16 `elements` in three.js's column-major order. -/
@[ext]
structure Mat4 where
  e0 : ℚ
  e1 : ℚ
  e2 : ℚ
  e3 : ℚ
  e4 : ℚ
  e5 : ℚ
  e6 : ℚ
  e7 : ℚ
  e8 : ℚ
  e9 : ℚ
  e10 : ℚ
  e11 : ℚ
  e12 : ℚ
  e13 : ℚ
  e14 : ℚ
  e15 : ℚ
deriving DecidableEq, Repr

/-- Embeds `Math.sign`. -/
def qsign (a : ℚ) : ℚ :=
  if a > 0 then 1 else if a < 0 then -1 else 0

/-- Embeds `THREE.Matrix4.makePerspective(left, right, top, bottom, near, far)` in
the WebGL coordinate-system convention (the default of a standalone
`THREE.PerspectiveCamera`, and the convention the Lengyel construction in
the source targets): clip-space z in `[-1, 1]`. -/
def makePerspective (left right top bottom near far : ℚ) : Mat4 :=
  let x := 2 * near / (right - left)
  let y := 2 * near / (top - bottom)
  let a := (right + left) / (right - left)
  let b := (top + bottom) / (top - bottom)
  let c := -(far + near) / (far - near)
  let d := -2 * far * near / (far - near)
  ⟨x, 0, 0, 0, 0, y, 0, 0, a, b, c, -1, 0, 0, d, 0⟩

/-- Embeds `computeObliqueProjectionMatrix` (PortalUtils.ts lines 15-56), from the
camera-space clip plane onward: the source first transforms the world-space
clip plane into camera space by the camera's view matrix (line 24) and then
operates only on the camera's projection matrix and that camera-space
plane; the claim's hypothesis ("the clip plane equals the camera's near
plane expressed in camera space") is about the camera-space plane, so the
embedding takes it as the input.  Lines 27-55 verbatim: build the plane
4-vector, compute the corner point `q` from the sign of the plane's x/y
components and the projection entries, scale the plane by `2 / (plane·q)`,
and overwrite the third row. -/
def computeObliqueProjectionMatrix (projectionMatrix : Mat4)
    (clipPlaneCamera : Plane) : Mat4 :=
  let px := clipPlaneCamera.normal.x
  let py := clipPlaneCamera.normal.y
  let pz := clipPlaneCamera.normal.z
  let pw := clipPlaneCamera.constant
  let qx := (qsign px + projectionMatrix.e8) / projectionMatrix.e0
  let qy := (qsign py + projectionMatrix.e9) / projectionMatrix.e5
  let qz : ℚ := -1
  let qw := (1 + projectionMatrix.e10) / projectionMatrix.e14
  let dotPQ := px * qx + py * qy + pz * qz + pw * qw
  let s := 2 / dotPQ
  { projectionMatrix with
      e2 := px * s
      e6 := py * s
      e10 := pz * s + 1
      e14 := pw * s }

/-- Core of the near-plane identity, over an arbitrary matrix of
perspective shape: when the camera-space clip plane is `(0, 0, -1, w)` with
`w = d / (1 - c)`, the oblique construction returns the matrix unchanged. -/
theorem computeOblique_core (x y a b c d : ℚ) (hc : ¬ c = 1) (hd : ¬ d = 0) :
    computeObliqueProjectionMatrix ⟨x, 0, 0, 0, 0, y, 0, 0, a, b, c, -1, 0, 0, d, 0⟩
        ⟨⟨0, 0, -1⟩, d / (1 - c)⟩
      = ⟨x, 0, 0, 0, 0, y, 0, 0, a, b, c, -1, 0, 0, d, 0⟩ := by
  have hc1 : (1 : ℚ) - c ≠ 0 := sub_ne_zero.mpr (fun h => hc h.symm)
  have hdot : (0 : ℚ) * ((qsign 0 + a) / x) + 0 * ((qsign 0 + b) / y)
      + (-1) * (-1) + d / (1 - c) * ((1 + c) / d) = 2 / (1 - c) := by
    field_simp
    ring
  simp only [computeObliqueProjectionMatrix, hdot]
  have h2 : (2 : ℚ) / (2 / (1 - c)) = 1 - c := by
    rw [div_div_eq_mul_div, mul_comm, mul_div_assoc, div_self (by norm_num), mul_one]
  ext <;> simp [h2] <;> field_simp

/-- C4: for every perspective camera (arbitrary frustum parameters
`left < right`, `bottom < top`, `0 < near < far`), feeding the camera's own
unmodified near plane — in camera space, the plane with normal `(0,0,-1)`
and constant `-near` — into the oblique-projection construction returns a
matrix equal to the camera's original projection matrix, exactly, over
exact arithmetic. -/
theorem computeObliqueProjectionMatrix_near_plane_identity
    (left right top bottom near far : ℚ)
    (hn : 0 < near) (hnf : near < far) (hlr : left < right) (hbt : bottom < top) :
    computeObliqueProjectionMatrix (makePerspective left right top bottom near far)
        ⟨⟨0, 0, -1⟩, -near⟩
      = makePerspective left right top bottom near far := by
  have hn0 : near ≠ 0 := ne_of_gt hn
  have hf0 : far ≠ 0 := ne_of_gt (lt_trans hn hnf)
  have hfn : far - near ≠ 0 := sub_ne_zero.mpr (ne_of_gt hnf)
  have hc : ¬ (-(far + near) / (far - near)) = 1 := by
    intro h
    rw [div_eq_one_iff_eq hfn] at h
    have : far = 0 := by linarith
    exact hf0 this
  have hd : ¬ (-2 * far * near / (far - near)) = 0 := by
    intro h
    rw [div_eq_zero_iff] at h
    rcases h with h | h
    · have : far * near ≠ 0 := mul_ne_zero hf0 hn0
      apply this
      linarith
    · exact hfn h
  have h1c : (1 : ℚ) - -(far + near) / (far - near) = 2 * far / (far - near) := by
    field_simp
    ring
  have h2f : (2 * far / (far - near) : ℚ) ≠ 0 :=
    div_ne_zero (mul_ne_zero two_ne_zero hf0) hfn
  have hw : (-near : ℚ)
      = -2 * far * near / (far - near) / (1 - -(far + near) / (far - near)) := by
    rw [h1c, eq_div_iff h2f, ← mul_div_assoc]
    congr 1
    ring
  have key := computeOblique_core (2 * near / (right - left)) (2 * near / (top - bottom))
    ((right + left) / (right - left)) ((top + bottom) / (top - bottom))
    (-(far + near) / (far - near)) (-2 * far * near / (far - near)) hc hd
  rw [makePerspective, hw]
  exact key

/-- Closed witness for the near-plane identity at a concrete symmetric
frustum. -/
theorem computeObliqueProjectionMatrix_near_plane_identity_witness :
    computeObliqueProjectionMatrix (makePerspective (-1) 1 1 (-1) 1 10)
        ⟨⟨0, 0, -1⟩, -1⟩
      = makePerspective (-1) 1 1 (-1) 1 10 :=
  computeObliqueProjectionMatrix_near_plane_identity (-1) 1 1 (-1) 1 10
    one_pos (by norm_num) (by norm_num) (by norm_num)

/-! ## PortalRenderer (PortalRenderer.ts)

The renderer is embedded as a pure function from frame inputs to the
sequence of GPU passes it issues: buffer clears, stencil-mask draws of a
portal quad (with the stencil reference value the pass writes) and scene
draws (with the stencil reference value and compare function applied to
every drawable).  Worlds and portals carry ids (`Nat`), standing for the
object references of the source; `linked` holds the id of the
`_linkedPortal`, and looking the id up in the world registry models
`world.portals.includes(destPortal)` (ids are unique, as in the demo). -/

/-- The three.js stencil compare functions the renderer uses. -/
inductive StencilCompare
  | always
  | equal
  | notEqual
deriving DecidableEq, Repr

/-- One GPU-level step of a frame. -/
inductive Pass
  | clear (color depth stencil : Bool)
  | stencilMask (portalId : Nat) (ref : Nat)
  | scenePass (sceneId : Nat) (ref : Nat) (func : StencilCompare)
deriving DecidableEq, Repr

/-- A `Portal` as the renderer sees it: id, pose and optional linked id. -/
structure RPortal where
  pid : Nat
  pose : PortalPose
  linked : Option Nat
deriving DecidableEq, Repr

/-- A `PortalWorld`: a scene plus the portals embedded in it. -/
structure World where
  sceneId : Nat
  portals : List RPortal
deriving DecidableEq, Repr

/-- A camera pose (`camera.position`, `camera.quaternion`). -/
structure Camera where
  position : Vec3
  quaternion : Quat
deriving DecidableEq, Repr

/-- Membership test `world.portals.includes(destPortal)` by id. -/
def findPortal (ps : List RPortal) (lid : Nat) : Option RPortal :=
  ps.find? (fun p => p.pid == lid)

/-- The destination-world search of `_renderPortals` (lines 204-211): scan
the registry in order and return the first world whose portal list
contains the linked portal. -/
def findDestWorld (ws : List World) (lid : Nat) : Option (World × RPortal) :=
  match ws with
  | [] => none
  | w :: rest =>
    match findPortal w.portals lid with
    | some p => some (w, p)
    | none => findDestWorld rest lid

/-- Embeds `PortalRenderer._renderPortals` (lines 188-249), written on the fuel
`maxRecursion - depth`: the source's entry guard `depth >= maxRecursion`
is exactly `fuel = 0`, and the recursive call at `depth + 1` has fuel
`fuel - 1`.  For each portal of the current world that has a link, whose
front side the camera is on, and whose destination world is found: stamp
the stencil mask with marker `depth + 1`, move the portal camera through
`getDestinationCameraTransform`, recurse into the destination world, then
draw the destination scene with an equality stencil test against
`depth + 1`. -/
def renderPortals (ws : List World) : Nat → Camera → World → Nat → List Pass
  | 0, _, _, _ => []
  | fuel + 1, cam, cw, depth =>
    cw.portals.flatMap (fun p =>
      match p.linked with
      | none => []
      | some lid =>
        if p.pose.isPointInFront cam.position then
          match findDestWorld ws lid with
          | none => []
          | some (dw, dp) =>
            let t := getDestinationCameraTransform p.pose (some dp.pose)
              cam.position cam.quaternion
            Pass.stencilMask p.pid (depth + 1) ::
              (renderPortals ws fuel ⟨t.1, t.2⟩ dw (depth + 1) ++
                [Pass.scenePass dw.sceneId (depth + 1) StencilCompare.equal])
        else [])

/-- Embeds `PortalRenderer.render` (lines 88-117): clear color, depth and stencil,
run `_renderPortals` from depth 0, then draw the current world with a
`NotEqual` stencil test against reference value `0` (the literal passed at
line 110). -/
def render (maxRecursion : Nat) (cam : Camera) (currentWorld : World)
    (allWorlds : List World) : List Pass :=
  Pass.clear true true true ::
    (renderPortals allWorlds maxRecursion cam currentWorld 0 ++
      [Pass.scenePass currentWorld.sceneId 0 StencilCompare.notEqual])

/-- Embeds `PortalRenderer.renderSimple` (lines 122-183): the single-pair entry
point; stencil mask with the default marker 1, destination scene with an
`Equal` test against 1, current scene with a `NotEqual` test against 1. -/
def renderSimple (cam : Camera) (currentSceneId destinationSceneId : Nat)
    (portal : RPortal) (linkedPose : Option PortalPose) : List Pass :=
  Pass.clear true true true ::
    ((match linkedPose with
      | some _ =>
        [Pass.stencilMask portal.pid 1,
         Pass.scenePass destinationSceneId 1 StencilCompare.equal]
      | none => []) ++
      [Pass.scenePass currentSceneId 1 StencilCompare.notEqual])

/-- Number of destination-world passes (scene draws with an `Equal`
stencil test) in a frame trace. -/
def destPassCount (trace : List Pass) : Nat :=
  trace.countP (fun pass =>
    match pass with
    | Pass.scenePass _ _ StencilCompare.equal => true
    | _ => false)

/-- C2: in `render`, the final current-world draw is issued with stencil
function `NotEqual` and reference value `0` — not the top-level marker
value `1` that the specification states (and that `renderSimple`, the
code's own comment at line 107 and spec step 3 agree on).  With reference
0, the `NotEqual` test passes exactly where the stencil buffer is nonzero,
i.e. only inside portal-marked regions, the opposite of "regions already
painted by a portal pass are left untouched". -/
theorem render_final_pass_stencil_ref_zero :
    (∀ (maxRecursion : Nat) (cam : Camera) (cw : World) (ws : List World),
      (render maxRecursion cam cw ws).getLast? =
        some (Pass.scenePass cw.sceneId 0 StencilCompare.notEqual)) ∧
    (∀ (cam : Camera) (csid dsid : Nat) (p : RPortal) (lp : Option PortalPose),
      (renderSimple cam csid dsid p lp).getLast? =
        some (Pass.scenePass csid 1 StencilCompare.notEqual)) := by
  constructor
  · intro maxRecursion cam cw ws
    show (Pass.clear true true true ::
      (renderPortals ws maxRecursion cam cw 0 ++
        [Pass.scenePass cw.sceneId 0 StencilCompare.notEqual])).getLast? = _
    rw [← List.cons_append, List.getLast?_concat]
  · intro cam csid dsid p lp
    cases lp <;> rfl

/-- Embeds `PortalRenderer._renderPortalStencil` (lines 254-278), restricted to
its effect on the owning scene's children list (the draw call itself does
not alter the list, and the stencil-reference assignment touches only the
mask material): record whether the mask mesh is already a child
(`portal.mesh.parent === scene`; under three.js's single-parent discipline
this is membership in `scene.children`), attach it if it was not, draw,
and detach it again if it was not. -/
def renderPortalStencil (sceneChildren : List Nat) (meshId : Nat) : List Nat :=
  let wasInScene := meshId ∈ sceneChildren
  let afterAdd := if wasInScene then sceneChildren else sceneChildren ++ [meshId]
  -- this._renderer.render(scene, camera): no change to the children list
  if wasInScene then afterAdd else afterAdd.erase meshId

/-- C9: the stencil-mask pass leaves the owning scene's children list
unchanged (even as a list, hence also as a set): if the mask mesh was
already a child nothing is touched; otherwise it is appended for the one
draw call and erased again immediately after. -/
theorem renderPortalStencil_children_preserved
    (sceneChildren : List Nat) (meshId : Nat) :
    renderPortalStencil sceneChildren meshId = sceneChildren := by
  by_cases h : meshId ∈ sceneChildren
  · simp [renderPortalStencil, h]
  · simp only [renderPortalStencil, if_neg h]
    rw [List.erase_append_right _ h]
    simp

/-! ## Recursion bound (C3): the canonical two-world mutual loop -/

/-- Portal A of the mutual loop: id 0, at the origin facing `+z`,
linked to portal 1. -/
def loopPortalA : RPortal := ⟨0, ⟨⟨0, 0, 0⟩, idQuat⟩, some 1⟩

/-- Portal B of the mutual loop: id 1, at `(0,0,10)` rotated 180 degrees
about the vertical axis, linked back to portal 0. -/
def loopPortalB : RPortal := ⟨1, ⟨⟨0, 0, 10⟩, flipYQuat⟩, some 0⟩

/-- World 0, containing only portal A. -/
def loopWorld1 : World := ⟨0, [loopPortalA]⟩

/-- World 1, containing only portal B. -/
def loopWorld2 : World := ⟨1, [loopPortalB]⟩

/-- The observer camera of the loop scenario: in front of both portals. -/
def loopCamera : Camera := ⟨⟨0, 1, 1⟩, idQuat⟩

/-- The through-portal camera: `getDestinationCameraTransform` moves the
loop camera to `(0,1,11)` with quaternion `(0,0,0,-1)`. -/
def loopCamera2 : Camera := ⟨⟨0, 1, 11⟩, ⟨0, 0, 0, -1⟩⟩

theorem loop_front_A : loopPortalA.pose.isPointInFront loopCamera.position = true := by
  rw [PortalPose.isPointInFront, decide_eq_true_iff]
  norm_num [loopPortalA, loopCamera, PortalPose.normal, Vec3.dot, Vec3.sub,
    Vec3.applyQuaternion, idQuat]

theorem loop_front_B : loopPortalB.pose.isPointInFront loopCamera.position = true := by
  rw [PortalPose.isPointInFront, decide_eq_true_iff]
  norm_num [loopPortalB, loopCamera, PortalPose.normal, Vec3.dot, Vec3.sub,
    Vec3.applyQuaternion, flipYQuat]

theorem loop_back_B : loopPortalB.pose.isPointInFront loopCamera2.position = false := by
  rw [PortalPose.isPointInFront, decide_eq_false_iff_not]
  norm_num [loopPortalB, loopCamera2, PortalPose.normal, Vec3.dot, Vec3.sub,
    Vec3.applyQuaternion, flipYQuat]

theorem loop_cam_through :
    getDestinationCameraTransform loopPortalA.pose (some loopPortalB.pose)
        loopCamera.position loopCamera.quaternion
      = (loopCamera2.position, loopCamera2.quaternion) := by
  norm_num [getDestinationCameraTransform, loopPortalA, loopPortalB, loopCamera,
    loopCamera2, idQuat, flipYQuat, Vec3.sub, Vec3.add, Vec3.applyQuaternion,
    Quat.conj, Quat.mul, Prod.ext_iff, Vec3.ext_iff, Quat.ext_iff]

/-- At depth 1 the loop recursion finds portal B behind the through-portal
camera and issues no pass, whatever fuel remains. -/
theorem loop_inner_empty (fuel : Nat) :
    renderPortals [loopWorld1, loopWorld2] fuel loopCamera2 loopWorld2 1 = [] := by
  cases fuel with
  | zero => rfl
  | succ n =>
    show (loopWorld2.portals.flatMap _) = []
    have hback : loopPortalB.pose.isPointInFront loopCamera2.position ≠ true := by
      rw [loop_back_B]
      exact Bool.false_ne_true
    simp [show loopWorld2.portals = [loopPortalB] from rfl,
      show loopPortalB.linked = some 0 from rfl, hback]

/-- The outer level of the loop recursion: one stencil mask, the (empty)
inner recursion, one destination pass. -/
theorem loop_outer (m : Nat) :
    renderPortals [loopWorld1, loopWorld2] (m + 1) loopCamera loopWorld1 0
      = Pass.stencilMask 0 1 ::
          (renderPortals [loopWorld1, loopWorld2] m loopCamera2 loopWorld2 1 ++
            [Pass.scenePass 1 1 StencilCompare.equal]) := by
  show (loopWorld1.portals.flatMap _) = _
  rw [show loopWorld1.portals = [loopPortalA] from rfl]
  simp only [List.flatMap_cons, List.flatMap_nil, List.append_nil]
  simp [show loopPortalA.linked = some 1 from rfl, loop_front_A,
    show findDestWorld [loopWorld1, loopWorld2] 1 = some (loopWorld2, loopPortalB) from rfl,
    loop_cam_through, show loopPortalA.pid = 0 from rfl,
    show loopWorld2.sceneId = 1 from rfl]
  try rfl

/-- C3 counterexample: in the canonical mutual loop — portals A and B in
separate worlds, linked both ways, both in front of the observer camera —
`render` with `maxRecursion = 2` performs exactly one destination pass,
not two: the through-portal camera always lies behind the destination
portal, so the inner level is culled by the `isPointInFront` test. -/
theorem render_mutual_loop_not_two_passes :
    loopPortalA.pose.isPointInFront loopCamera.position = true ∧
    loopPortalB.pose.isPointInFront loopCamera.position = true ∧
    destPassCount (render 2 loopCamera loopWorld1 [loopWorld1, loopWorld2]) = 1 ∧
    destPassCount (render 2 loopCamera loopWorld1 [loopWorld1, loopWorld2]) ≠ 2 := by
  have hcount : destPassCount (render 2 loopCamera loopWorld1 [loopWorld1, loopWorld2]) = 1 := by
    rw [render, loop_outer 1, loop_inner_empty 1]
    rfl
  exact ⟨loop_front_A, loop_front_B, hcount, by rw [hcount]; norm_num⟩

/-- C3 (amended): recursion is bounded by `maxRecursion`, not by graph
traversal: `maxRecursion = 0` draws only the current world, for every
input.  But the claimed "exactly N nested destination passes" for a
mutual two-portal loop fails for `N ≥ 2`: the through-portal camera's
signed distance to the destination portal is the negation of the viewer's
signed distance to the source portal (second conjunct), so the camera
used inside the recursion is always behind the destination portal and the
`isPointInFront` cull stops the loop after one destination pass (third
conjunct: the canonical loop yields exactly 1 pass for every
`maxRecursion ≥ 1`). -/
theorem render_recursion_bounded_amended :
    (∀ (cam : Camera) (cw : World) (ws : List World),
      render 0 cam cw ws =
        [Pass.clear true true true,
         Pass.scenePass cw.sceneId 0 StencilCompare.notEqual]) ∧
    (∀ (p : Vec3) (src dst : PortalPose),
      src.quaternion.normSq = 1 → dst.quaternion.normSq = 1 →
      dst.getSignedDistance (transformPointThroughPortal p src dst)
        = -(src.getSignedDistance p)) ∧
    (∀ N : Nat, 1 ≤ N →
      destPassCount (render N loopCamera loopWorld1 [loopWorld1, loopWorld2]) = 1) := by
  refine ⟨fun cam cw ws => rfl, ?_, ?_⟩
  · intro p src dst hs hd
    simp only [transformPointThroughPortal, PortalPose.getSignedDistance,
      PortalPose.normal]
    rw [Vec3.add_sub_cancel']
    rw [Vec3.dot_applyQuaternion _ _ _ hd]
    conv_rhs =>
      rw [← Vec3.applyQuaternion_cancel_conj (p.sub src.position) src.quaternion hs]
    rw [Vec3.dot_applyQuaternion _ _ _ hs]
    simp only [Vec3.dot]
    ring
  · intro N hN
    obtain ⟨m, rfl⟩ : ∃ m, N = m + 1 := ⟨N - 1, (Nat.succ_pred_eq_of_pos hN).symm⟩
    rw [render, loop_outer m, loop_inner_empty m]
    rfl

/-- Closed witness for the amended recursion theorem: the zero-recursion
trace, the signed-distance negation at the concrete scenario poses, and
the single destination pass of the loop at `maxRecursion = 2`. -/
theorem render_recursion_bounded_amended_witness :
    render 0 loopCamera loopWorld1 [loopWorld1, loopWorld2] =
      [Pass.clear true true true, Pass.scenePass 0 0 StencilCompare.notEqual] ∧
    portalB.getSignedDistance (transformPointThroughPortal ⟨0, 1, 1⟩ portalA portalB)
      = -(portalA.getSignedDistance ⟨0, 1, 1⟩) ∧
    destPassCount (render 2 loopCamera loopWorld1 [loopWorld1, loopWorld2]) = 1 :=
  ⟨render_recursion_bounded_amended.1 loopCamera loopWorld1 [loopWorld1, loopWorld2],
   render_recursion_bounded_amended.2.1 ⟨0, 1, 1⟩ portalA portalB
     (by simp [portalA, idQuat, Quat.normSq])
     (by simp [portalB, flipYQuat, Quat.normSq]),
   render_recursion_bounded_amended.2.2 2 (by norm_num)⟩

end Euclid
